import Mathlib

/-!
Verification development for the dex-scanner resilience layer.

This file gives a shallow embedding of the V2 services of the repository
(`src/services/priceCacheV2.js`, `src/services/liquidityFilterV2.js`,
`src/services/volumeAnalyzer.js`, `src/services/pairMonitorV2.js`) and proves
or refutes the behavioural claims about them.  JavaScript numbers are modelled
as `Rat` (exact real-number semantics of the arithmetic the code performs),
timestamps as `Nat` milliseconds, addresses and symbols as `String`, and the
mutable service objects as explicit state records threaded through the
functions.  Network calls are modelled by passing the outcome each upstream
provider would produce as an explicit argument.
-/

/-- JavaScript `String.prototype.toLowerCase` restricted to the ASCII strings
(hex addresses) the scanner works with: lowercase every character. -/
def jsToLowerCase (s : String) : String :=
  String.mk (s.data.map Char.toLower)

/-- An entry of the `knownTokens` registry of `PriceCacheV2Service`
(`src/services/priceCacheV2.js`, constructor).  `priceUSD` is present for the
pegged stablecoins, `coingeckoId` for the dynamically priced wrapped native
token. -/
structure KnownTokenInfo where
  symbol : String
  decimals : Nat
  priceUSD : Option Rat
  coingeckoId : Option String
  deriving DecidableEq

/-- The literal `knownTokens` object of `PriceCacheV2Service` with its keys
exactly as written in the source (checksummed, mixed case). -/
def knownTokensV2 : List (String × KnownTokenInfo) :=
  [("0xbb4CdB9CBd36B01bD1cBaEBF2De08d9173bc095c",
      { symbol := "WBNB", decimals := 18, priceUSD := none,
        coingeckoId := some "binancecoin" }),
   ("0x55d398326f99059fF775485246999027B3197955",
      { symbol := "USDT", decimals := 18, priceUSD := some 1, coingeckoId := none }),
   ("0xe9e7CEA3DedcA5984780Bafc599bD69ADd087D56",
      { symbol := "BUSD", decimals := 18, priceUSD := some 1, coingeckoId := none }),
   ("0x8AC76a51cc950d9822D68b83fE1Ad97B32Cd580d",
      { symbol := "USDC", decimals := 18, priceUSD := some 1, coingeckoId := none })]

/-- State of a `PriceCacheV2Service` instance.  `redisStore` models the live
(unexpired) redis entries as `(key, price, expiresAtMs)`; redis expires
`setex` entries server side, so an expired entry behaves like an absent one.
`memoryCache` holds `(symbol, price, timestampMs)` exactly like the in-memory
`Map`.  `cacheTTL` is in seconds as in the source; the `last*` fields are the
`lastApiCall` rate-limit timestamps. -/
structure OracleState where
  knownTokens : List (String × KnownTokenInfo)
  redisAvailable : Bool
  redisStore : List (String × Rat × Nat)
  memoryCache : List (String × Rat × Nat)
  cacheTTL : Nat
  lastCoingecko : Nat
  lastDexscreener : Nat
  lastBinance : Nat
  deriving DecidableEq

/-- Redis `get` on a keyed store of unexpired-until entries. -/
def redisGet (store : List (String × Rat × Nat)) (key : String) (now : Nat) :
    Option Rat :=
  match store.find? (fun e => e.1 == key) with
  | some e => if now < e.2.2 then some e.2.1 else none
  | none => none

/-- Read of the in-memory fallback `Map` in `getPrice`: an entry is returned
only while `Date.now() - cached.timestamp < this.cacheTTL * 1000`. -/
def memoryGet (cache : List (String × Rat × Nat)) (symbol : String)
    (ttlMs now : Nat) : Option Rat :=
  match cache.find? (fun e => e.1 == symbol) with
  | some e => if now - e.2.2 < ttlMs then some e.2.1 else none
  | none => none

/-- The `getPrice(symbol)` method of `PriceCacheV2Service`: redis when
available (keys prefixed `price:`), else the in-memory map with TTL check. -/
def getPrice (st : OracleState) (now : Nat) (symbol : String) : Option Rat :=
  if st.redisAvailable then redisGet st.redisStore ("price:" ++ symbol) now
  else memoryGet st.memoryCache symbol (st.cacheTTL * 1000) now

/-- Observable side effects of a price lookup, used to state that the
stablecoin short circuit performs neither a cache read nor a network call. -/
inductive OracleEffect
  | cacheRead (symbol : String)
  | networkRequest (provider : String)
  deriving DecidableEq

/-- The `getTokenPriceUSD(tokenAddress)` method together with the effects it
performs: lowercase the address, look it up in `knownTokens`, return the fixed
`priceUSD` if that field is truthy, else consult the cache.  The method issues
no network request on any path. -/
def getTokenPriceUSDEff (st : OracleState) (now : Nat) (tokenAddress : String) :
    Option Rat × List OracleEffect :=
  let normalizedAddress := jsToLowerCase tokenAddress
  match st.knownTokens.lookup normalizedAddress with
  | none => (none, [])
  | some knownToken =>
    match knownToken.priceUSD with
    | some p =>
      if p ≠ 0 then (some p, [])
      else (getPrice st now knownToken.symbol, [.cacheRead knownToken.symbol])
    | none => (getPrice st now knownToken.symbol, [.cacheRead knownToken.symbol])

/-- Result component of `getTokenPriceUSD`. -/
def getTokenPriceUSD (st : OracleState) (now : Nat) (tokenAddress : String) :
    Option Rat :=
  (getTokenPriceUSDEff st now tokenAddress).1

/-- The `isKnownToken(tokenAddress)` method. -/
def isKnownToken (st : OracleState) (tokenAddress : String) : Bool :=
  (st.knownTokens.lookup (jsToLowerCase tokenAddress)).isSome

/-- The `getKnownTokenInfo(tokenAddress)` method. -/
def getKnownTokenInfo (st : OracleState) (tokenAddress : String) :
    Option KnownTokenInfo :=
  st.knownTokens.lookup (jsToLowerCase tokenAddress)

/-- State of a freshly constructed `PriceCacheV2Service` running without
redis, as after `initialize()` fails to connect (or redis is unconfigured). -/
def freshOracleState : OracleState :=
  { knownTokens := knownTokensV2
    redisAvailable := false
    redisStore := []
    memoryCache := []
    cacheTTL := 60
    lastCoingecko := 0
    lastDexscreener := 0
    lastBinance := 0 }

/-- C1: the known-base-token registry lookup is claimed to be
case-insensitive, with fixed-price tokens resolving to their fixed price.  In
the source the registry keys are checksummed (mixed case) while the lookup key
is lowercased, and JavaScript property lookup is exact, so the lookup misses
for EVERY casing of every registered address: `getTokenPriceUSD` returns null
even for the registry key spelled exactly as written, and the pegged USDT
never returns its fixed price 1.0.  This theorem evaluates the code at the
failing inputs. -/
theorem c1_registry_lookup_failing_input :
    getTokenPriceUSD freshOracleState 0
        "0xbb4CdB9CBd36B01bD1cBaEBF2De08d9173bc095c" = none ∧
    getTokenPriceUSD freshOracleState 0
        "0x55d398326f99059fF775485246999027B3197955" = none ∧
    getTokenPriceUSD freshOracleState 0
        "0x55d398326f99059ff775485246999027b3197955" = none ∧
    isKnownToken freshOracleState
        "0xbb4CdB9CBd36B01bD1cBaEBF2De08d9173bc095c" = false ∧
    (knownTokensV2.lookup "0x55d398326f99059fF775485246999027B3197955").map
        KnownTokenInfo.priceUSD = some (some 1) := by
  decide

/-- Outcome of the HTTP interaction a provider fetcher would have: the request
throws, returns a response without a usable price, or returns a usable numeric
price. -/
inductive NetResult
  | netError
  | badResponse
  | priceResponse (p : Rat)
  deriving DecidableEq

/-- Result of one rate-limited provider fetcher of `PriceCacheV2Service`:
the price it returns (none when it throws), whether an HTTP request was
issued, and the `lastApiCall` timestamp afterwards. -/
structure FetchAttempt where
  price : Option Rat
  requested : Bool
  newLast : Nat
  deriving DecidableEq

/-- Common shape of `fetchFromCoinGecko` / `fetchFromDexScreener` /
`fetchFromBinance`: if the minimum inter-call interval has not elapsed the
method throws `Rate limit` before issuing any request; otherwise the request
is issued and `lastApiCall` is updated once a response arrives (a thrown
network error leaves it untouched, a response without a usable price updates
it and then throws). -/
def rateLimitedFetch (lastCall limit now : Nat) (net : NetResult) : FetchAttempt :=
  if now - lastCall < limit then
    { price := none, requested := false, newLast := lastCall }
  else
    match net with
    | .netError => { price := none, requested := true, newLast := lastCall }
    | .badResponse => { price := none, requested := true, newLast := now }
    | .priceResponse p => { price := some p, requested := true, newLast := now }

/-- The `fetchFromCoinGecko` gate: 10000 ms between calls. -/
def fetchFromCoinGecko (st : OracleState) (now : Nat) (net : NetResult) :
    FetchAttempt :=
  rateLimitedFetch st.lastCoingecko 10000 now net

/-- The `fetchFromDexScreener` gate: 2000 ms between calls. -/
def fetchFromDexScreener (st : OracleState) (now : Nat) (net : NetResult) :
    FetchAttempt :=
  rateLimitedFetch st.lastDexscreener 2000 now net

/-- The `fetchFromBinance` gate: 1000 ms between calls. -/
def fetchFromBinance (st : OracleState) (now : Nat) (net : NetResult) :
    FetchAttempt :=
  rateLimitedFetch st.lastBinance 1000 now net

/-- The price `fetchBNBPrice` extracts from one provider attempt: a returned
price passes the `if (price)` truthiness check (so 0 does not count), a thrown
error is caught and yields nothing. -/
def attemptYield (a : FetchAttempt) : Option Rat :=
  match a.price with
  | some p => if p ≠ 0 then some p else none
  | none => none

/-- Result of `fetchBNBPrice`: the price, the service state afterwards, and
the list of providers to which an HTTP request was actually issued. -/
structure BNBFetchResult where
  price : Rat
  state : OracleState
  requests : List String
  deriving DecidableEq

/-- The `fetchBNBPrice()` cascade: CoinGecko, then DexScreener, then Binance,
first truthy price wins; if all three fail the cached `WBNB` value is
returned when truthy, else the hardcoded 600 fallback. -/
def fetchBNBPrice (st : OracleState) (now : Nat) (cg dx bn : NetResult) :
    BNBFetchResult :=
  let a1 := fetchFromCoinGecko st now cg
  let st1 := { st with lastCoingecko := a1.newLast }
  let r1 : List String := if a1.requested then ["coingecko"] else []
  match attemptYield a1 with
  | some p => { price := p, state := st1, requests := r1 }
  | none =>
    let a2 := fetchFromDexScreener st1 now dx
    let st2 := { st1 with lastDexscreener := a2.newLast }
    let r2 : List String := r1 ++ (if a2.requested then ["dexscreener"] else [])
    match attemptYield a2 with
    | some p => { price := p, state := st2, requests := r2 }
    | none =>
      let a3 := fetchFromBinance st2 now bn
      let st3 := { st2 with lastBinance := a3.newLast }
      let r3 : List String := r2 ++ (if a3.requested then ["binance"] else [])
      match attemptYield a3 with
      | some p => { price := p, state := st3, requests := r3 }
      | none =>
        let price :=
          match getPrice st3 now "WBNB" with
          | some c => if c ≠ 0 then c else 600
          | none => 600
        { price := price, state := st3, requests := r3 }

/-- Oracle state with an expired cached WBNB price: the in-memory entry was
written at time 0 with price 550 and the TTL is 60 s, so at `now = 61000` it
is one second past expiry.  All rate-limit gates are open. -/
def c3OracleState : OracleState :=
  { knownTokens := knownTokensV2
    redisAvailable := false
    redisStore := []
    memoryCache := [("WBNB", 550, 0)]
    cacheTTL := 60
    lastCoingecko := 0
    lastDexscreener := 0
    lastBinance := 0 }

/-- Helper: `getPrice` never reads the `lastApiCall` rate-limit timestamps, so
updating them during the cascade does not change a cache read. -/
theorem getPrice_rate_timestamps_irrelevant (st : OracleState) (a b c now : Nat)
    (symbol : String) :
    getPrice { st with lastCoingecko := a, lastDexscreener := b,
                       lastBinance := c } now symbol = getPrice st now symbol :=
  rfl

/-- C3 counterexample: with a previously cached WBNB price of 550 that is past
its TTL and all three providers failing, `fetchBNBPrice` returns the hardcoded
600 default, not the stale 550 — `getPrice` drops expired entries even on the
fallback path, contradicting the claimed stale-read-regardless-of-age
behaviour.  The second conjunct shows the entry was a live cached value at the
time it was written. -/
theorem c3_counterexample :
    (fetchBNBPrice c3OracleState 61000 .netError .netError .netError).price = 600 ∧
    getPrice c3OracleState 0 "WBNB" = some 550 ∧
    (550 : Rat) ≠ 600 := by
  decide

/-- C3 amended: when all three providers yield no usable price (failure or
rate limit), `fetchBNBPrice` returns the cached WBNB value only if a truthy
cache entry is still within its TTL; otherwise it returns the hardcoded 600
default — a TTL-expired cache entry is NOT consulted. -/
theorem c3_fallback_is_ttl_bounded (st : OracleState) (now : Nat)
    (cg dx bn : NetResult)
    (h1 : attemptYield (fetchFromCoinGecko st now cg) = none)
    (h2 : attemptYield (fetchFromDexScreener st now dx) = none)
    (h3 : attemptYield (fetchFromBinance st now bn) = none) :
    (fetchBNBPrice st now cg dx bn).price =
      (match getPrice st now "WBNB" with
       | some c => if c ≠ 0 then c else 600
       | none => 600) := by
  unfold fetchBNBPrice
  have e2 : fetchFromDexScreener
      { st with lastCoingecko := (fetchFromCoinGecko st now cg).newLast } now dx =
      fetchFromDexScreener st now dx := rfl
  have e3 : fetchFromBinance
      { { st with lastCoingecko := (fetchFromCoinGecko st now cg).newLast }
          with lastDexscreener := (fetchFromDexScreener st now dx).newLast } now bn =
      fetchFromBinance st now bn := rfl
  simp only [e2, e3, h1, h2, h3]
  rfl

/-- Witness for `c3_fallback_is_ttl_bounded`: all gates rate-limited, fresh
cached WBNB entry of 550 written 31 s ago with a 60 s TTL, so 550 is
returned. -/
theorem c3_fallback_is_ttl_bounded_witness :
    (fetchBNBPrice
      { knownTokens := knownTokensV2, redisAvailable := false, redisStore := [],
        memoryCache := [("WBNB", 550, 30000)], cacheTTL := 60,
        lastCoingecko := 60000, lastDexscreener := 60000, lastBinance := 60500 }
      61000 (.priceResponse 999) (.priceResponse 999) (.priceResponse 999)).price
      = 550 := by
  have h := c3_fallback_is_ttl_bounded
    { knownTokens := knownTokensV2, redisAvailable := false, redisStore := [],
      memoryCache := [("WBNB", 550, 30000)], cacheTTL := 60,
      lastCoingecko := 60000, lastDexscreener := 60000, lastBinance := 60500 }
    61000 (.priceResponse 999) (.priceResponse 999) (.priceResponse 999)
    (by decide) (by decide) (by decide)
  rw [h]
  decide

/-- Outcome of an HTTP interaction of the Volume Analyzer (no price payload is
needed for the gate behaviour): the request throws, returns an unusable
response, or succeeds. -/
inductive HttpOutcome
  | fails
  | respondsBad
  | respondsOk
  deriving DecidableEq

/-- Result of one rate-limited Volume Analyzer fetch: how long the gate slept
before proceeding, whether the HTTP request was issued, whether the fetch
succeeded, and the rate-limit timestamp afterwards. -/
structure VolumeFetchAttempt where
  sleptMs : Nat
  requested : Bool
  succeeded : Bool
  newLast : Nat
  deriving DecidableEq

/-- Common shape of `fetchFromSubgraph` / `fetchFromDexScreener` in
`src/services/volumeAnalyzer.js`: when called before the minimum inter-call
interval has elapsed, the gate awaits a timeout of the remaining time and then
proceeds — the request is always issued; the timestamp is updated once a
response arrives (as in the Oracle, a thrown network error leaves it
untouched). -/
def volumeGatedFetch (lastCall limit now : Nat) (net : HttpOutcome) :
    VolumeFetchAttempt :=
  let wait := if now - lastCall < limit then limit - (now - lastCall) else 0
  match net with
  | .fails => { sleptMs := wait, requested := true, succeeded := false,
                newLast := lastCall }
  | .respondsBad => { sleptMs := wait, requested := true, succeeded := false,
                      newLast := now + wait }
  | .respondsOk => { sleptMs := wait, requested := true, succeeded := true,
                     newLast := now + wait }

/-- The Volume Analyzer `fetchFromSubgraph` gate: 2000 ms between calls. -/
def fetchFromSubgraph (lastSubgraphCall now : Nat) (net : HttpOutcome) :
    VolumeFetchAttempt :=
  volumeGatedFetch lastSubgraphCall 2000 now net

/-- The Volume Analyzer `fetchFromDexScreener` gate: 2000 ms between calls. -/
def fetchVolumeFromDexScreener (lastDexScreenerCall now : Nat)
    (net : HttpOutcome) : VolumeFetchAttempt :=
  volumeGatedFetch lastDexScreenerCall 2000 now net

/-- C9: the Price Oracle rate gate fails fast — a fetch before the provider
interval (10 s CoinGecko, 2 s DexScreener, 1 s Binance, checked structurally
in `fetchFromCoinGecko`, `fetchFromDexScreener`, `fetchFromBinance` above)
elapses returns a synthetic failure without issuing a request, and the
cascade behaves exactly as if that provider had erred, moving on at once; the
Volume Analyzer gate instead always issues the request, sleeping the
remaining interval when called early, and a volume fetch never fails because
of its gate (success is determined by the HTTP outcome alone). -/
theorem c9_rate_gate_asymmetry :
    (∀ lastCall limit now : Nat, ∀ net : NetResult, now - lastCall < limit →
        rateLimitedFetch lastCall limit now net =
          { price := none, requested := false, newLast := lastCall }) ∧
    (∀ st : OracleState, ∀ now : Nat, ∀ cg dx bn : NetResult,
        now - st.lastCoingecko < 10000 →
        fetchBNBPrice st now cg dx bn = fetchBNBPrice st now .netError dx bn ∧
        "coingecko" ∉ (fetchBNBPrice st now cg dx bn).requests) ∧
    (∀ lastCall now : Nat, ∀ net : HttpOutcome,
        (fetchFromSubgraph lastCall now net).requested = true ∧
        ((fetchFromSubgraph lastCall now net).succeeded = true ↔
          net = .respondsOk) ∧
        (now - lastCall < 2000 →
          (fetchFromSubgraph lastCall now net).sleptMs =
            2000 - (now - lastCall)) ∧
        (fetchVolumeFromDexScreener lastCall now net).requested = true) := by
  refine ⟨?_, ?_, ?_⟩
  · intro lastCall limit now net h
    simp [rateLimitedFetch, h]
  · intro st now cg dx bn h
    have hgate : fetchFromCoinGecko st now cg =
        { price := none, requested := false, newLast := st.lastCoingecko } := by
      simp [fetchFromCoinGecko, rateLimitedFetch, h]
    have hgateErr : fetchFromCoinGecko st now .netError =
        { price := none, requested := false, newLast := st.lastCoingecko } := by
      simp [fetchFromCoinGecko, rateLimitedFetch, h]
    constructor
    · unfold fetchBNBPrice
      rw [hgate, hgateErr]
    · unfold fetchBNBPrice
      rw [hgate]
      simp only [attemptYield]
      split <;> simp_all <;> split <;> simp_all <;> split <;> simp_all
  · intro lastCall now net
    cases net <;>
        simp [fetchFromSubgraph, fetchVolumeFromDexScreener, volumeGatedFetch] <;>
      omega

/-- Witness for `c9_rate_gate_asymmetry` at concrete inputs: a gated Oracle
fetch 500 ms after the previous call, the fresh-state cascade 5 s after start
(CoinGecko still gated), and a Volume Analyzer fetch 1.5 s after the previous
call. -/
theorem c9_rate_gate_asymmetry_witness :
    rateLimitedFetch 500 1000 600 NetResult.netError =
      { price := none, requested := false, newLast := 500 } ∧
    "coingecko" ∉ (fetchBNBPrice freshOracleState 5000
      (.priceResponse 3) .netError .netError).requests ∧
    (fetchFromSubgraph 0 1500 .respondsOk).requested = true :=
  ⟨c9_rate_gate_asymmetry.1 500 1000 600 NetResult.netError (by decide),
   (c9_rate_gate_asymmetry.2.1 freshOracleState 5000
      (.priceResponse 3) .netError .netError (by decide)).2,
   (c9_rate_gate_asymmetry.2.2 0 1500 .respondsOk).1⟩

/-- Result of `calculateLiquidityUSD` in `src/services/liquidityFilterV2.js`:
either a successful liquidity figure with the known-token label, or a
`no_price_data` failure when the computed liquidity is zero. -/
structure LiquidityOutcome where
  success : Bool
  liquidityUSD : Rat
  knownToken : Option String
  reason : Option String
  deriving DecidableEq

/-- The USD value one known side contributes: the raw reserve scaled by the
token's decimals (`ethers.formatUnits`) times the looked-up price. -/
def sideValueUSD (reserve : Nat) (decimals : Nat) (price : Rat) : Rat :=
  ((reserve : Rat) / 10 ^ decimals) * price

/-- The `calculateLiquidityUSD(token0Address, token1Address, reserve0,
reserve1)` method: each side contributes its scaled-reserve USD value when the
token is registered and its price lookup is truthy; with both tokens known
the two contributions are summed as-is, otherwise the accumulated value is
doubled; a zero total is a `no_price_data` failure. -/
def calculateLiquidityUSD (st : OracleState) (now : Nat) (t0 t1 : String)
    (r0 r1 : Nat) : LiquidityOutcome :=
  let token0Info := getKnownTokenInfo st t0
  let token1Info := getKnownTokenInfo st t1
  let s0 : Rat × Option String :=
    match token0Info with
    | some info =>
      match getTokenPriceUSD st now t0 with
      | some price =>
        if price ≠ 0 then (sideValueUSD r0 info.decimals price, some info.symbol)
        else (0, none)
      | none => (0, none)
    | none => (0, none)
  let s1 : Rat × Option String :=
    match token1Info with
    | some info =>
      match getTokenPriceUSD st now t1 with
      | some price =>
        if price ≠ 0 then
          (sideValueUSD r1 info.decimals price,
           some (match s0.2 with
                 | some k => k ++ "/" ++ info.symbol
                 | none => info.symbol))
        else (0, s0.2)
      | none => (0, s0.2)
    | none => (0, s0.2)
  let accumulated := s0.1 + s1.1
  let liquidityUSD :=
    if token0Info.isSome ∧ token1Info.isSome then accumulated
    else accumulated * 2
  if liquidityUSD = 0 then
    { success := false, liquidityUSD := 0, knownToken := none,
      reason := some "no_price_data" }
  else
    { success := true, liquidityUSD := liquidityUSD, knownToken := s1.2,
      reason := none }

/-- C4: with exactly one side registered and a truthy price, the computed
liquidity is exactly twice that side's USD value; with both sides registered
and truthy prices, it is exactly the sum of the two side values with no
doubling. -/
theorem c4_liquidity_doubling (st : OracleState) (now : Nat) (t0 t1 : String)
    (r0 r1 : Nat) :
    (∀ info p, getKnownTokenInfo st t0 = some info →
      getKnownTokenInfo st t1 = none →
      getTokenPriceUSD st now t0 = some p → p ≠ 0 →
      sideValueUSD r0 info.decimals p ≠ 0 →
      (calculateLiquidityUSD st now t0 t1 r0 r1).liquidityUSD =
        2 * sideValueUSD r0 info.decimals p ∧
      (calculateLiquidityUSD st now t0 t1 r0 r1).success = true) ∧
    (∀ info p, getKnownTokenInfo st t0 = none →
      getKnownTokenInfo st t1 = some info →
      getTokenPriceUSD st now t1 = some p → p ≠ 0 →
      sideValueUSD r1 info.decimals p ≠ 0 →
      (calculateLiquidityUSD st now t0 t1 r0 r1).liquidityUSD =
        2 * sideValueUSD r1 info.decimals p ∧
      (calculateLiquidityUSD st now t0 t1 r0 r1).success = true) ∧
    (∀ info0 info1 p0 p1, getKnownTokenInfo st t0 = some info0 →
      getKnownTokenInfo st t1 = some info1 →
      getTokenPriceUSD st now t0 = some p0 → p0 ≠ 0 →
      getTokenPriceUSD st now t1 = some p1 → p1 ≠ 0 →
      sideValueUSD r0 info0.decimals p0 + sideValueUSD r1 info1.decimals p1 ≠ 0 →
      (calculateLiquidityUSD st now t0 t1 r0 r1).liquidityUSD =
        sideValueUSD r0 info0.decimals p0 + sideValueUSD r1 info1.decimals p1 ∧
      (calculateLiquidityUSD st now t0 t1 r0 r1).success = true) := by
  refine ⟨?_, ?_, ?_⟩
  · intro info p h0 h1 hp hpne hv
    unfold calculateLiquidityUSD
    simp only [h0, h1, hp, if_pos hpne, Option.isSome_none, Option.isSome_some]
    simp [hpne, hv, mul_comm]
  · intro info p h0 h1 hp hpne hv
    unfold calculateLiquidityUSD
    simp only [h0, h1, hp, Option.isSome_none, Option.isSome_some]
    simp [hpne, hv, mul_comm]
  · intro info0 info1 p0 p1 h0 h1 hp0 hp0ne hp1 hp1ne hsum
    unfold calculateLiquidityUSD
    simp only [h0, h1, hp0, hp1, Option.isSome_some]
    simp [hp0ne, hp1ne, hsum]

/-- Oracle state whose registry keys are lowercase (the `knownTokens` field of
the service is instance state, so the lookup functions are stated over any
registry contents), used to exercise the liquidity computation. -/
def lowercaseRegistryState : OracleState :=
  { knownTokens :=
      [("0xaaa1", { symbol := "USDT", decimals := 18, priceUSD := some 1,
                    coingeckoId := none }),
       ("0xccc3", { symbol := "BUSD", decimals := 18, priceUSD := some 1,
                    coingeckoId := none })]
    redisAvailable := false
    redisStore := []
    memoryCache := []
    cacheTTL := 60
    lastCoingecko := 0
    lastDexscreener := 0
    lastBinance := 0 }

/-- Witness for `c4_liquidity_doubling`: a one-known-side pair with side value
5 USD yields liquidity 10, a both-known pair with side values 2 and 3 yields
exactly 5. -/
theorem c4_liquidity_doubling_witness :
    (calculateLiquidityUSD lowercaseRegistryState 0 "0xaaa1" "0xbbb2"
        (5 * 10 ^ 18) 7).liquidityUSD = 10 ∧
    (calculateLiquidityUSD lowercaseRegistryState 0 "0xaaa1" "0xccc3"
        (2 * 10 ^ 18) (3 * 10 ^ 18)).liquidityUSD = 5 := by
  constructor
  · have h := (c4_liquidity_doubling lowercaseRegistryState 0 "0xaaa1" "0xbbb2"
        (5 * 10 ^ 18) 7).1
      { symbol := "USDT", decimals := 18, priceUSD := some 1, coingeckoId := none }
      1 (by decide) (by decide) (by decide) (by decide)
      (by norm_num [sideValueUSD])
    rw [h.1]
    norm_num [sideValueUSD]
  · have h := (c4_liquidity_doubling lowercaseRegistryState 0 "0xaaa1" "0xccc3"
        (2 * 10 ^ 18) (3 * 10 ^ 18)).2.2
      { symbol := "USDT", decimals := 18, priceUSD := some 1, coingeckoId := none }
      { symbol := "BUSD", decimals := 18, priceUSD := some 1, coingeckoId := none }
      1 1 (by decide) (by decide) (by decide) (by decide) (by decide) (by decide)
      (by norm_num [sideValueUSD])
    rw [h.1]
    norm_num [sideValueUSD]

/-- Tier thresholds of `LiquidityFilterV2Service` (constructor defaults, all
config overrides absent). -/
structure TiersConfig where
  earlyGemsMinLiquidity : Rat
  earlyGemsMinVolume24h : Rat
  earlyGemsMinSwaps15m : Nat
  highLiquidityMinVIP : Rat
  highLiquidityMinPublic : Rat
  highLiquidityMinVolume24h : Rat
  megaMinLiquidity : Rat
  megaMinVolume24h : Rat
  deriving DecidableEq

/-- Default thresholds as in the source: early gems $1k/$5k/10 swaps, high
liquidity $10k VIP / $35k public / $20k volume, mega $50k/$50k. -/
def defaultTiers : TiersConfig :=
  { earlyGemsMinLiquidity := 1000
    earlyGemsMinVolume24h := 5000
    earlyGemsMinSwaps15m := 10
    highLiquidityMinVIP := 10000
    highLiquidityMinPublic := 35000
    highLiquidityMinVolume24h := 20000
    megaMinLiquidity := 50000
    megaMinVolume24h := 50000 }

/-- The fields of the volume-analysis object that `determineTier` reads. -/
structure VolumeData where
  volume24h : Rat
  swapCount15m : Nat
  deriving DecidableEq

/-- JavaScript `volumeData?.volume24h >= m`: false when `volumeData` is
null. -/
def volumeAtLeast (vd : Option VolumeData) (m : Rat) : Bool :=
  match vd with
  | some v => decide (v.volume24h ≥ m)
  | none => false

/-- JavaScript `volumeData?.swapCount15m >= m`: false when `volumeData` is
null. -/
def swapsAtLeast (vd : Option VolumeData) (m : Nat) : Bool :=
  match vd with
  | some v => decide (v.swapCount15m ≥ m)
  | none => false

/-- Output of `determineTier`: tier name, the two channel-activation booleans
(VIP is channel A, Public is channel B), the priority label, and the
diagnostic check booleans the matched tier computes (none when the tier does
not compute that check). -/
structure TierResult where
  name : String
  alertVIP : Bool
  alertPublic : Bool
  priority : String
  volumeCheckPassed : Option Bool
  swapsCheckPassed : Option Bool
  deriving DecidableEq

/-- The `determineTier(liquidityUSD, volumeData)` method: mega first, then
high-liquidity, then early gems, else below-threshold.  Mega activates both
channels unconditionally; high-liquidity always activates VIP and activates
Public iff the public threshold is also met; early gems activates VIP iff
both the volume and the swap-count checks pass and never activates Public;
below-threshold activates nothing. -/
def determineTier (t : TiersConfig) (liquidityUSD : Rat)
    (volumeData : Option VolumeData) : TierResult :=
  if liquidityUSD ≥ t.megaMinLiquidity then
    { name := "mega", alertVIP := true, alertPublic := true,
      priority := "highest",
      volumeCheckPassed := some (volumeAtLeast volumeData t.megaMinVolume24h),
      swapsCheckPassed := none }
  else if liquidityUSD ≥ t.highLiquidityMinVIP then
    { name := "high-liquidity", alertVIP := true,
      alertPublic := decide (liquidityUSD ≥ t.highLiquidityMinPublic),
      priority := "high",
      volumeCheckPassed :=
        some (volumeAtLeast volumeData t.highLiquidityMinVolume24h),
      swapsCheckPassed := none }
  else if liquidityUSD ≥ t.earlyGemsMinLiquidity then
    let volumeCheck := volumeAtLeast volumeData t.earlyGemsMinVolume24h
    let swapsCheck := swapsAtLeast volumeData t.earlyGemsMinSwaps15m
    { name := "early-gems", alertVIP := volumeCheck && swapsCheck,
      alertPublic := false, priority := "medium",
      volumeCheckPassed := some volumeCheck,
      swapsCheckPassed := some swapsCheck }
  else
    { name := "below-threshold", alertVIP := false, alertPublic := false,
      priority := "none", volumeCheckPassed := none, swapsCheckPassed := none }

/-- C5: tier assignment with the default thresholds evaluates mega, then
high-liquidity, then early gems (the tier the spec calls early-signal), first
match wins; mega activates both channels regardless of the volume check;
high-liquidity always activates channel A (VIP) and channel B (Public) iff
liquidity is at least 35000; early gems activates channel A iff both the
volume and swap-count signals pass (a partial match does not qualify) and
never channel B; below 1000 nothing is activated. -/
theorem c5_tier_assignment (L : Rat) (vd : Option VolumeData) :
    (L ≥ 50000 →
      (determineTier defaultTiers L vd).name = "mega" ∧
      (determineTier defaultTiers L vd).alertVIP = true ∧
      (determineTier defaultTiers L vd).alertPublic = true) ∧
    (10000 ≤ L → L < 50000 →
      (determineTier defaultTiers L vd).name = "high-liquidity" ∧
      (determineTier defaultTiers L vd).alertVIP = true ∧
      ((determineTier defaultTiers L vd).alertPublic = true ↔ L ≥ 35000)) ∧
    (1000 ≤ L → L < 10000 →
      (determineTier defaultTiers L vd).name = "early-gems" ∧
      (determineTier defaultTiers L vd).alertPublic = false ∧
      ((determineTier defaultTiers L vd).alertVIP = true ↔
        ∃ v, vd = some v ∧ v.volume24h ≥ 5000 ∧ v.swapCount15m ≥ 10)) ∧
    (L < 1000 →
      (determineTier defaultTiers L vd).name = "below-threshold" ∧
      (determineTier defaultTiers L vd).alertVIP = false ∧
      (determineTier defaultTiers L vd).alertPublic = false) := by
  unfold determineTier defaultTiers
  refine ⟨?_, ?_, ?_, ?_⟩
  · intro h
    simp only
    split_ifs with h1 <;> simp_all <;> linarith
  · intro hlo hhi
    simp only
    split_ifs with h1 h2 <;> first
      | (exfalso; linarith)
      | simp_all
  · intro hlo hhi
    simp only
    split_ifs with h1 h2 h3 <;> first
      | (exfalso; linarith)
      | (refine ⟨rfl, rfl, ?_⟩
         cases vd with
         | none => simp [volumeAtLeast, swapsAtLeast]
         | some v => simp [volumeAtLeast, swapsAtLeast])
  · intro h
    simp only
    split_ifs with h1 h2 h3 <;> first
      | (exfalso; linarith)
      | simp_all

/-- Witness for `c5_tier_assignment` at concrete liquidity/volume values for
every tier, including an early-gems pair whose swap-count signal fails so
channel A stays off. -/
theorem c5_tier_assignment_witness :
    (determineTier defaultTiers 60000 none).alertPublic = true ∧
    (determineTier defaultTiers 40000 none).alertPublic = true ∧
    (determineTier defaultTiers 20000 none).name = "high-liquidity" ∧
    (determineTier defaultTiers 5000 (some ⟨6000, 12⟩)).alertVIP = true ∧
    (determineTier defaultTiers 5000 (some ⟨6000, 3⟩)).alertVIP = false ∧
    (determineTier defaultTiers 500 none).name = "below-threshold" := by
  refine ⟨?_, ?_, ?_, ?_, ?_, ?_⟩
  · exact ((c5_tier_assignment 60000 none).1 (by norm_num)).2.2
  · exact (((c5_tier_assignment 40000 none).2.1 (by norm_num)
      (by norm_num)).2.2).mpr (by norm_num)
  · exact ((c5_tier_assignment 20000 none).2.1 (by norm_num) (by norm_num)).1
  · exact (((c5_tier_assignment 5000 (some ⟨6000, 12⟩)).2.2.1 (by norm_num)
      (by norm_num)).2.2).mpr ⟨⟨6000, 12⟩, rfl, by norm_num, by norm_num⟩
  · have h := ((c5_tier_assignment 5000 (some ⟨6000, 3⟩)).2.2.1 (by norm_num)
      (by norm_num)).2.2
    cases hb : (determineTier defaultTiers 5000 (some ⟨6000, 3⟩)).alertVIP with
    | false => rfl
    | true =>
      obtain ⟨v, hv, _, hs⟩ := h.mp hb
      obtain rfl := Option.some.inj hv.symm
      simp at hs
  · exact ((c5_tier_assignment 500 none).2.2.2 (by norm_num)).1

/-- State of `PairMonitorV2Service` relevant to deduplication: the
`processedPairs` set (modelled as the list of its elements) and the `total`
statistic counting pairs that entered the classification pipeline. -/
structure MonitorState where
  processedPairs : List String
  total : Nat
  deriving DecidableEq

/-- The dedup head of `processPairCreatedEvent(event)` in
`src/services/pairMonitorV2.js`: the pair address is taken from the event
VERBATIM (no lowercasing), checked against `processedPairs`, and skipped when
present; otherwise it is added, `total` is incremented and the
classification/notification pipeline runs (the returned boolean). -/
def processPairCreatedEvent (st : MonitorState) (pairAddress : String) :
    MonitorState × Bool :=
  if st.processedPairs.contains pairAddress then (st, false)
  else ({ processedPairs := pairAddress :: st.processedPairs,
          total := st.total + 1 }, true)

/-- C2 counterexample: the handler does not normalize the pair address to
lowercase, so the same pair fed once in checksummed casing and once lowercased
is classified twice — the claimed exactly-one-classification invariant fails
for case-varied duplicates. -/
theorem c2_counterexample :
    (processPairCreatedEvent { processedPairs := [], total := 0 }
        "0xAbCd12").2 = true ∧
    (processPairCreatedEvent
        (processPairCreatedEvent { processedPairs := [], total := 0 }
          "0xAbCd12").1 "0xabcd12").2 = true ∧
    (processPairCreatedEvent
        (processPairCreatedEvent { processedPairs := [], total := 0 }
          "0xAbCd12").1 "0xabcd12").1.total = 2 ∧
    jsToLowerCase "0xAbCd12" = jsToLowerCase "0xabcd12" := by
  decide

/-- C2 amended: the handler deduplicates on the exact address string it
receives — an address already in the Processed-Pair set is never re-classified
or re-notified and leaves the state unchanged, and a new address is added and
classified exactly once; distinct casings, however, are treated as distinct
pairs. -/
theorem c2_dedup_exact_address (st : MonitorState) (a : String) :
    (st.processedPairs.contains a = true →
      processPairCreatedEvent st a = (st, false)) ∧
    (st.processedPairs.contains a = false →
      (processPairCreatedEvent st a).2 = true ∧
      (processPairCreatedEvent st a).1.processedPairs = a :: st.processedPairs ∧
      (processPairCreatedEvent st a).1.total = st.total + 1) := by
  constructor
  · intro h
    have hm : a ∈ st.processedPairs := by simpa using h
    simp [processPairCreatedEvent, hm]
  · intro h
    have hm : a ∉ st.processedPairs := by simpa using h
    simp [processPairCreatedEvent, hm]

/-- Witness for `c2_dedup_exact_address`: a seen address is skipped, an unseen
one is processed. -/
theorem c2_dedup_exact_address_witness :
    processPairCreatedEvent { processedPairs := ["0xAbCd12"], total := 1 }
        "0xAbCd12" = ({ processedPairs := ["0xAbCd12"], total := 1 }, false) ∧
    (processPairCreatedEvent { processedPairs := ["0xAbCd12"], total := 1 }
        "0xEe99").2 = true :=
  ⟨(c2_dedup_exact_address { processedPairs := ["0xAbCd12"], total := 1 }
      "0xAbCd12").1 (by decide),
   ((c2_dedup_exact_address { processedPairs := ["0xAbCd12"], total := 1 }
      "0xEe99").2 (by decide)).1⟩

/-- The kinds of periodic task the Pair Event Detector could run.
`backfillSweep` is the index-based sweep the spec describes (compare
`allPairsLength` with the last-observed count and fetch new pairs by index);
it is part of the modelling vocabulary so its absence can be stated. -/
inductive PeriodicTask
  | eventPoll
  | statsReport
  | backfillSweep
  deriving DecidableEq

/-- The interval timers `PairMonitorV2Service.start` and `monitorPairs`
install: the statistics timer when `config.features.sendStats` is set with a
positive interval, and the `checkForNewPairs` poll at
`config.monitoring.eventPollInterval`.  Nothing else is scheduled. -/
def installedTimers (sendStats : Bool) (statsInterval eventPollInterval : Nat) :
    List (PeriodicTask × Nat) :=
  (if sendStats ∧ statsInterval > 0 then [(.statsReport, statsInterval)]
   else []) ++ [(.eventPoll, eventPollInterval)]

/-- On-chain environment the detector observes: the current block number, the
`PairCreated` log as `(blockNumber, pairAddress)` entries, and the factory's
pair index (`allPairsLength` / `allPairs`). -/
structure ChainState where
  blockNumber : Nat
  pairCreatedLog : List (Nat × String)
  allPairs : List String
  deriving DecidableEq

/-- The `queryFilter(PairCreated, fromBlock, toBlock)` call: events of the log
whose block lies in the inclusive range. -/
def queryPairCreated (c : ChainState) (fromBlock toBlock : Nat) : List String :=
  (c.pairCreatedLog.filter
    (fun e => decide (fromBlock ≤ e.1 ∧ e.1 ≤ toBlock))).map (fun e => e.2)

/-- Detector state for the poll loop: the `lastBlock` watermark plus the
dedup/statistics state. -/
structure DetectorState where
  lastBlock : Nat
  monitor : MonitorState
  deriving DecidableEq

/-- One `checkForNewPairs` tick of `monitorPairs`: if the chain advanced,
query the `PairCreated` events of the new block range, feed each through
`processPairCreatedEvent`, and advance the watermark; otherwise do nothing.
This poll tick is the only periodic pair-detection action the V2 monitor
runs. -/
def checkForNewPairs (chain : ChainState) (st : DetectorState) : DetectorState :=
  if chain.blockNumber > st.lastBlock then
    let events := queryPairCreated chain (st.lastBlock + 1) chain.blockNumber
    { lastBlock := chain.blockNumber,
      monitor := events.foldl (fun m a => (processPairCreatedEvent m a).1)
        st.monitor }
  else st

/-- Chain on which the factory pair count has grown to 1 (a pair exists at
index 0) but no `PairCreated` log entry lies in the polled range. -/
def c8Chain : ChainState :=
  { blockNumber := 101, pairCreatedLog := [], allPairs := ["0xnewpair"] }

/-- C8 counterexample: the V2 detector installs no backfill sweep — its only
timers are the event poll and the optional statistics report — and a poll
tick on a chain whose total-pairs counter has grown (but whose event query
returns nothing) leaves the Processed-Pair set empty: the newly indexed pair
is never fetched by index nor fed to the handler, contradicting the claimed
backfill behaviour. -/
theorem c8_counterexample :
    ((installedTimers true 3600000 30000).map Prod.fst).contains
        PeriodicTask.backfillSweep = false ∧
    (checkForNewPairs c8Chain
        { lastBlock := 100, monitor := { processedPairs := [], total := 0 } }
      ).monitor.processedPairs = [] ∧
    c8Chain.allPairs.length = 1 := by
  decide

/-- C8 amended: the V2 detector runs no index-based backfill sweep.  Its only
periodic detection action is the block-range poll: no installed timer is a
backfill sweep, and a pair address that never appears in the `PairCreated`
log can never enter the Processed-Pair set through a poll tick, even when it
is present in the factory's `allPairs` index. -/
theorem c8_no_backfill_sweep (sendStats : Bool) (statsInterval epi : Nat)
    (chain : ChainState) (st : DetectorState) (a : String) :
    ((installedTimers sendStats statsInterval epi).map Prod.fst).contains
        PeriodicTask.backfillSweep = false ∧
    (a ∉ chain.pairCreatedLog.map (fun e => e.2) →
      a ∉ st.monitor.processedPairs →
      a ∉ (checkForNewPairs chain st).monitor.processedPairs) := by
  constructor
  · unfold installedTimers
    split <;> simp [List.contains_eq_any_beq]
  · intro hlog hst
    unfold checkForNewPairs
    split
    · have hev : ∀ b ∈ queryPairCreated chain (st.lastBlock + 1)
          chain.blockNumber, b ≠ a := by
        intro b hb hba
        apply hlog
        subst hba
        unfold queryPairCreated at hb
        rcases List.mem_map.mp hb with ⟨e, he, rfl⟩
        exact List.mem_map.mpr ⟨e, (List.mem_filter.mp he).1, rfl⟩
      revert hst hev
      generalize queryPairCreated chain (st.lastBlock + 1) chain.blockNumber
        = evs
      generalize st.monitor = m
      induction evs generalizing m with
      | nil => intro hst _; simpa using hst
      | cons b rest ih =>
        intro hst hev
        simp only [List.foldl_cons]
        apply ih
        · unfold processPairCreatedEvent
          split
          · exact hst
          · simp only [List.mem_cons, not_or]
            exact ⟨fun hab => (hev b (by simp)) hab.symm, hst⟩
        · intro x hx
          exact hev x (by simp [hx])
    · exact hst

/-- Witness for `c8_no_backfill_sweep`: on the concrete chain above, the
indexed-but-unlogged pair never enters the Processed-Pair set. -/
theorem c8_no_backfill_sweep_witness :
    "0xnewpair" ∉ (checkForNewPairs c8Chain
        { lastBlock := 100, monitor := { processedPairs := [], total := 0 } }
      ).monitor.processedPairs :=
  (c8_no_backfill_sweep true 3600000 30000 c8Chain
      { lastBlock := 100, monitor := { processedPairs := [], total := 0 } }
      "0xnewpair").2 (by decide) (by decide)

/-- One entry of `MultiRPCProviderService.providers`: `connected` models
whether the `provider` handle is non-null; `responseTime` is in milliseconds
(`-1` after a failed initialization); `failures` is the per-endpoint failure
counter. -/
structure Endpoint where
  url : String
  connected : Bool
  healthy : Bool
  lastCheck : Nat
  responseTime : Int
  failures : Nat
  deriving DecidableEq

/-- State of the `MultiRPCProviderService` pool: the endpoint list, the
active-endpoint cursor `currentProviderIndex`, and the `stats` counters. -/
structure PoolState where
  endpoints : List Endpoint
  current : Nat
  requests : Nat
  failuresTotal : Nat
  failovers : Nat
  deriving DecidableEq

/-- In-place update of the endpoint at one index (JavaScript mutates
`providers[i]`). -/
def modifyAt (f : Endpoint → Endpoint) : Nat → List Endpoint → List Endpoint
  | _, [] => []
  | 0, e :: es => f e :: es
  | n + 1, e :: es => e :: modifyAt f n es

/-- JavaScript `this.providers[idx]?.healthy` as a boolean. -/
def healthyAt (es : List Endpoint) (i : Nat) : Bool :=
  match es.get? i with
  | some e => e.healthy
  | none => false

/-- The scan of the `failover()` do-while loop: starting after `start`, walk
forward (wrapping) and return the first index whose endpoint is healthy; the
loop stops without a result once it would arrive back at `start` — except
that `start` itself is accepted when healthy, because the loop tests health
before testing for wrap-around. -/
def findNextHealthy (es : List Endpoint) (start : Nat) : Option Nat :=
  (List.range es.length).findSome? (fun j =>
    let idx := (start + j + 1) % es.length
    if healthyAt es idx then some idx else none)

/-- The `failover()` method: move the cursor to the next healthy endpoint and
count a failover event; when no healthy endpoint exists the cursor is left
unchanged (the loop wraps back to its start index and breaks). -/
def failover (st : PoolState) : PoolState :=
  match findNextHealthy st.endpoints st.current with
  | some idx => { st with current := idx, failovers := st.failovers + 1 }
  | none => st

/-- Per-endpoint effect of a failed call in `executeWithFailover`: increment
`failures` and flip `healthy` off once the counter exceeds 3. -/
def recordCallFailure (ep : Endpoint) : Endpoint :=
  let f := ep.failures + 1
  { ep with failures := f, healthy := if f > 3 then false else ep.healthy }

/-- Per-endpoint effect of a successful call: update `responseTime` and
`lastCheck`; the failure counter is not touched. -/
def recordCallSuccess (rt : Int) (now : Nat) (ep : Endpoint) : Endpoint :=
  { ep with responseTime := rt, lastCheck := now }

/-- The message of the aggregate error thrown after the attempt loop:
template-literal interpolation of `lastError?.message`, which prints
`undefined` when no attempt produced an error. -/
def aggregateErrorMsg (lastErr : Option String) : String :=
  match lastErr with
  | some m => "All RPC providers failed: " ++ m
  | none => "All RPC providers failed: undefined"

/-- Result of one `executeWithFailover` call: whether it returned, the
aggregate error message when it threw, the endpoint indices on which the
operation was actually executed (in order), and the pool state afterwards. -/
structure ExecOutcome where
  success : Bool
  errorMsg : Option String
  attempts : List Nat
  final : PoolState
  deriving DecidableEq

/-- The attempt loop of `executeWithFailover`, recursing on the remaining
attempt budget (`maxAttempts = providers.length`).  An unhealthy current
endpoint consumes an attempt and triggers a failover without executing the
operation; a failure records the per-endpoint and pool counters and fails
over unless this was the last attempt; a success records response time and
last-check and returns.  `op i` is the outcome of executing the operation
against endpoint `i` (none = success, some message = error or timeout). -/
def execGo (op : Nat → Option String) (elapsed : Nat → Int) (now : Nat) :
    Nat → PoolState → Option String → List Nat → ExecOutcome
  | 0, st, lastErr, tr =>
    { success := false, errorMsg := some (aggregateErrorMsg lastErr),
      attempts := tr.reverse, final := st }
  | remaining + 1, st, lastErr, tr =>
    match st.endpoints.get? st.current with
    | none =>
      { success := false, errorMsg := some (aggregateErrorMsg lastErr),
        attempts := tr.reverse, final := st }
    | some pd =>
      if pd.healthy then
        match op st.current with
        | none =>
          let es := modifyAt (recordCallSuccess (elapsed st.current) now)
            st.current st.endpoints
          { success := true, errorMsg := none,
            attempts := (st.current :: tr).reverse,
            final := { st with endpoints := es } }
        | some msg =>
          let st1 := { st with
            endpoints := modifyAt recordCallFailure st.current st.endpoints,
            failuresTotal := st.failuresTotal + 1 }
          let st2 := if remaining > 0 then failover st1 else st1
          execGo op elapsed now remaining st2 (some msg) (st.current :: tr)
      else
        execGo op elapsed now remaining (failover st) lastErr tr

/-- The `executeWithFailover(fn, context)` method: bump the request counter
and run the attempt loop with a budget of one attempt per configured
endpoint. -/
def executeWithFailover (op : Nat → Option String) (elapsed : Nat → Int)
    (now : Nat) (st : PoolState) : ExecOutcome :=
  execGo op elapsed now st.endpoints.length
    { st with requests := st.requests + 1 } none []

/-- Healthy primary endpoint. -/
def primaryEndpoint : Endpoint :=
  { url := "primary", connected := true, healthy := true, lastCheck := 0,
    responseTime := 0, failures := 0 }

/-- Unhealthy secondary endpoint (as after a failed initialization). -/
def deadSecondaryEndpoint : Endpoint :=
  { url := "secondary", connected := false, healthy := false, lastCheck := 0,
    responseTime := -1, failures := 1 }

/-- Two-endpoint pool whose secondary is unhealthy. -/
def c6Pool : PoolState :=
  { endpoints := [primaryEndpoint, deadSecondaryEndpoint], current := 0,
    requests := 0, failuresTotal := 0, failovers := 0 }

/-- C6 counterexample: with endpoint 1 unhealthy and every call failing,
`executeWithFailover` executes the operation TWICE against endpoint 0 (the
failover after the first failure wraps past the unhealthy endpoint back to
the same one) and throws without ever trying endpoint 1 — refuting both the
at-most-once-per-endpoint claim and the throws-only-after-all-endpoints
claim.  The aggregate error does carry the last underlying message. -/
theorem c6_counterexample :
    (executeWithFailover (fun _ => some "boom") (fun _ => 0) 0 c6Pool).success
        = false ∧
    (executeWithFailover (fun _ => some "boom") (fun _ => 0) 0 c6Pool).attempts
        = [0, 0] ∧
    (1 : Nat) ∉ (executeWithFailover (fun _ => some "boom") (fun _ => 0) 0
        c6Pool).attempts ∧
    (executeWithFailover (fun _ => some "boom") (fun _ => 0) 0 c6Pool).errorMsg
        = some "All RPC providers failed: boom" := by
  decide

/-- The attempt loop performs at most `fuel` further attempts beyond those
already recorded. -/
theorem execGo_attempts_length (op : Nat → Option String) (elapsed : Nat → Int)
    (now : Nat) :
    ∀ (fuel : Nat) (st : PoolState) (lastErr : Option String) (tr : List Nat),
      (execGo op elapsed now fuel st lastErr tr).attempts.length ≤
        fuel + tr.length := by
  intro fuel
  induction fuel with
  | zero =>
    intro st lastErr tr
    simp [execGo]
  | succ n ih =>
    intro st lastErr tr
    simp only [execGo]
    split
    · simp
    · split
      · split
        · simp
          omega
        · refine le_trans (ih _ _ _) ?_
          simp
          omega
      · refine le_trans (ih _ _ _) ?_
        omega

/-- Invariant of the attempt loop: the running `lastError` is always the
operation outcome of the most recently attempted endpoint, so the aggregate
error thrown on exhaustion carries the last underlying error message. -/
theorem execGo_aggregate_error (op : Nat → Option String) (elapsed : Nat → Int)
    (now : Nat) :
    ∀ (fuel : Nat) (st : PoolState) (lastErr : Option String) (tr : List Nat),
      lastErr = tr.head?.bind op →
      (execGo op elapsed now fuel st lastErr tr).success = false →
      (execGo op elapsed now fuel st lastErr tr).errorMsg =
        some (aggregateErrorMsg
          ((execGo op elapsed now fuel st lastErr tr).attempts.getLast?.bind
            op)) := by
  intro fuel
  induction fuel with
  | zero =>
    intro st lastErr tr hinv _
    simp [execGo, List.getLast?_reverse, hinv]
  | succ n ih =>
    intro st lastErr tr hinv hfail
    simp only [execGo] at hfail ⊢
    cases hg : st.endpoints.get? st.current with
    | none =>
      simp only [hg] at hfail ⊢
      simp_all [List.getLast?_reverse]
    | some pd =>
      simp only [hg] at hfail ⊢
      by_cases hh : pd.healthy = true
      · simp only [hh, if_true] at hfail ⊢
        cases hop : op st.current with
        | none =>
          simp only [hop] at hfail
          exact absurd hfail (by simp)
        | some msg =>
          simp only [hop] at hfail ⊢
          exact ih _ _ _ (by simp [hop]) hfail
      · have hh2 : pd.healthy = false := by simpa using hh
        simp only [hh2, Bool.false_eq_true, if_false] at hfail ⊢
        exact ih _ _ _ hinv hfail

/-- C6 amended: per call, `executeWithFailover` executes the operation at most
`providers.length` times in total — an endpoint can be attempted more than
once when unhealthy endpoints absorb attempt slots, and the aggregate error
can be thrown with some endpoints untried — and when it throws, the aggregate
error carries the message of the last underlying error (the outcome of the
last attempted endpoint; `undefined` when no endpoint was attempted). -/
theorem c6_attempt_budget (op : Nat → Option String) (elapsed : Nat → Int)
    (now : Nat) (st : PoolState) :
    (executeWithFailover op elapsed now st).attempts.length ≤
      st.endpoints.length ∧
    ((executeWithFailover op elapsed now st).success = false →
      (executeWithFailover op elapsed now st).errorMsg =
        some (aggregateErrorMsg
          ((executeWithFailover op elapsed now st).attempts.getLast?.bind
            op))) := by
  constructor
  · have h := execGo_attempts_length op elapsed now st.endpoints.length
      { st with requests := st.requests + 1 } none []
    simpa [executeWithFailover] using h
  · intro hfail
    exact execGo_aggregate_error op elapsed now st.endpoints.length
      { st with requests := st.requests + 1 } none [] (by simp) hfail

/-- Witness for `c6_attempt_budget` on the concrete two-endpoint pool: two
attempts within the budget of two, and the thrown aggregate message is built
from the last error. -/
theorem c6_attempt_budget_witness :
    (executeWithFailover (fun _ => some "boom") (fun _ => 0) 0 c6Pool
      ).attempts.length ≤ c6Pool.endpoints.length ∧
    (executeWithFailover (fun _ => some "boom") (fun _ => 0) 0 c6Pool
      ).errorMsg = some (aggregateErrorMsg
        ((executeWithFailover (fun _ => some "boom") (fun _ => 0) 0 c6Pool
          ).attempts.getLast?.bind (fun _ => some "boom"))) :=
  ⟨(c6_attempt_budget (fun _ => some "boom") (fun _ => 0) 0 c6Pool).1,
   (c6_attempt_budget (fun _ => some "boom") (fun _ => 0) 0 c6Pool).2
     (by decide)⟩

/-- Updating index `i` leaves every other index unchanged. -/
theorem modifyAt_get?_ne (f : Endpoint → Endpoint) :
    ∀ (i j : Nat) (es : List Endpoint), j ≠ i →
      (modifyAt f i es).get? j = es.get? j := by
  intro i
  induction i with
  | zero =>
    intro j es h
    cases es with
    | nil => rfl
    | cons e es =>
      cases j with
      | zero => exact absurd rfl h
      | succ j => simp [modifyAt]
  | succ n ih =>
    intro j es h
    cases es with
    | nil => rfl
    | cons e es =>
      cases j with
      | zero => simp [modifyAt]
      | succ j =>
        simp only [modifyAt, List.get?_cons_succ]
        exact ih j es (fun hj => h (by rw [hj]))

/-- Updating index `i` maps the stored endpoint through `f`. -/
theorem modifyAt_get?_eq (f : Endpoint → Endpoint) :
    ∀ (i : Nat) (es : List Endpoint),
      (modifyAt f i es).get? i = (es.get? i).map f := by
  intro i
  induction i with
  | zero =>
    intro es
    cases es with
    | nil => rfl
    | cons e es => simp [modifyAt]
  | succ n ih =>
    intro es
    cases es with
    | nil => rfl
    | cons e es =>
      simp only [modifyAt, List.get?_cons_succ]
      exact ih es

/-- `failover` only moves the cursor; it never modifies an endpoint. -/
theorem failover_endpoints (st : PoolState) :
    (failover st).endpoints = st.endpoints := by
  unfold failover
  split <;> rfl

/-- An endpoint that is unhealthy when `executeWithFailover` starts is never
executed against and its record is untouched: inside the attempt loop nothing
ever sets a health flag back to true, the loop only executes the operation on
a healthy current endpoint, and all record updates target that endpoint. -/
theorem execGo_unhealthy_untouched (op : Nat → Option String)
    (elapsed : Nat → Int) (now : Nat) :
    ∀ (fuel : Nat) (st : PoolState) (lastErr : Option String) (tr : List Nat)
      (i : Nat) (e : Endpoint), st.endpoints.get? i = some e →
      e.healthy = false → i ∉ tr →
      i ∉ (execGo op elapsed now fuel st lastErr tr).attempts ∧
      (execGo op elapsed now fuel st lastErr tr).final.endpoints.get? i
        = some e := by
  intro fuel
  induction fuel with
  | zero =>
    intro st lastErr tr i e hg hu htr
    simp only [execGo]
    exact ⟨by simpa using htr, hg⟩
  | succ n ih =>
    intro st lastErr tr i e hg hu htr
    simp only [execGo]
    cases hcur : st.endpoints.get? st.current with
    | none => exact ⟨by simpa using htr, hg⟩
    | some pd =>
      by_cases hh : pd.healthy = true
      · have hne : i ≠ st.current := by
          intro hie
          rw [hie, hcur] at hg
          injection hg with hpe
          rw [← hpe, hh] at hu
          simp at hu
        simp only [hh, if_true]
        cases hop : op st.current with
        | none =>
          constructor
          · simp only [List.mem_reverse, List.mem_cons, not_or]
            exact ⟨hne, by simpa using htr⟩
          · simp only
            rw [modifyAt_get?_ne _ _ _ _ hne]
            exact hg
        | some msg =>
          have h1 : (modifyAt recordCallFailure st.current st.endpoints).get? i
              = some e := by
            rw [modifyAt_get?_ne _ _ _ _ hne]
            exact hg
          refine ih _ _ _ _ _ ?_ hu ?_
          · show (if n > 0 then failover _ else _).endpoints.get? i = some e
            split
            · rw [failover_endpoints]
              exact h1
            · exact h1
          · simp only [List.mem_cons, not_or]
            exact ⟨hne, htr⟩
      · have hh2 : pd.healthy = false := by simpa using hh
        simp only [hh2, Bool.false_eq_true, if_false]
        refine ih _ _ _ _ _ ?_ hu htr
        rw [failover_endpoints]
        exact hg

/-- The failover scan only ever returns a healthy index. -/
theorem findNextHealthy_sound (es : List Endpoint) (start idx : Nat) :
    findNextHealthy es start = some idx → healthyAt es idx = true := by
  intro h
  obtain ⟨j, _, hj⟩ := List.exists_of_findSome?_eq_some h
  by_cases hb : healthyAt es ((start + j + 1) % es.length) = true
  · simp only [hb, if_true] at hj
    injection hj with hj
    rw [← hj]
    exact hb
  · simp only [hb] at hj
    simp at hj

/-- Per-endpoint effect of one pass of `performHealthChecks`
(`src/services/pairMonitorV2.js:639-705`): a dead handle is reconnected on a
successful probe (resetting health and the failure counter); a live handle
with a successful probe gets fresh response time and last-check, and — only
when currently unhealthy with a nonzero failure counter — is promoted back to
healthy with the counter reset; a failed probe increments the counter and
demotes a healthy endpoint once the counter exceeds 2. -/
def healthCheckEndpoint (probe : Bool) (rt : Int) (now : Nat) (ep : Endpoint) :
    Endpoint :=
  if ep.connected = false then
    if probe then { ep with connected := true, healthy := true, failures := 0 }
    else { ep with healthy := false }
  else if probe then
    let ep1 := { ep with responseTime := rt, lastCheck := now }
    if ep1.healthy = false ∧ ep1.failures > 0 then
      { ep1 with healthy := true, failures := 0 }
    else ep1
  else
    let f := ep.failures + 1
    let ep1 := { ep with failures := f }
    if ep.healthy ∧ f > 2 then { ep1 with healthy := false } else ep1

/-- C7: four consecutive call failures drive the failure counter past 3 and
mark the endpoint unhealthy; an unhealthy endpoint is never executed against
by `executeWithFailover` and its record is untouched by it; the failover
cursor scan only selects healthy endpoints; a failed health probe never
promotes an endpoint; and a successful health probe against an unhealthy
(connected, nonzero-counter) endpoint — or a reconnect of a dead one — marks
it healthy again with its failure counter reset. -/
theorem c7_health_demotion_and_recovery :
    (∀ ep : Endpoint, ep.failures = 0 →
      (recordCallFailure (recordCallFailure (recordCallFailure
        (recordCallFailure ep)))).healthy = false ∧
      (recordCallFailure (recordCallFailure (recordCallFailure
        (recordCallFailure ep)))).failures = 4) ∧
    (∀ ep : Endpoint, ep.failures + 1 > 3 →
      (recordCallFailure ep).healthy = false) ∧
    (∀ (op : Nat → Option String) (elapsed : Nat → Int) (now : Nat)
        (st : PoolState) (i : Nat) (e : Endpoint),
      st.endpoints.get? i = some e → e.healthy = false →
      i ∉ (executeWithFailover op elapsed now st).attempts ∧
      (executeWithFailover op elapsed now st).final.endpoints.get? i
        = some e) ∧
    (∀ (es : List Endpoint) (start idx : Nat),
      findNextHealthy es start = some idx → healthyAt es idx = true) ∧
    (∀ (rt : Int) (now : Nat) (ep : Endpoint), ep.healthy = false →
      (healthCheckEndpoint false rt now ep).healthy = false) ∧
    (∀ (rt : Int) (now : Nat) (ep : Endpoint), ep.connected = true →
      ep.healthy = false → ep.failures > 0 →
      (healthCheckEndpoint true rt now ep).healthy = true ∧
      (healthCheckEndpoint true rt now ep).failures = 0) ∧
    (∀ (rt : Int) (now : Nat) (ep : Endpoint), ep.connected = false →
      (healthCheckEndpoint true rt now ep).healthy = true ∧
      (healthCheckEndpoint true rt now ep).failures = 0 ∧
      (healthCheckEndpoint true rt now ep).connected = true) := by
  refine ⟨?_, ?_, ?_, ?_, ?_, ?_, ?_⟩
  · intro ep h
    simp [recordCallFailure, h]
  · intro ep h
    simp [recordCallFailure, h]
  · intro op elapsed now st i e hg hu
    exact execGo_unhealthy_untouched op elapsed now st.endpoints.length
      { st with requests := st.requests + 1 } none [] i e hg hu
      (by simp)
  · exact findNextHealthy_sound
  · intro rt now ep h
    simp [healthCheckEndpoint, h]
    split <;> rfl
  · intro rt now ep hc hu hf
    simp [healthCheckEndpoint, hc, hu, hf]
  · intro rt now ep hc
    simp [healthCheckEndpoint, hc]

/-- Witness for `c7_health_demotion_and_recovery` at concrete endpoints: the
fresh primary endpoint after four failed calls, the dead secondary of the
two-endpoint pool during a failing call, a cursor scan, and probe outcomes on
a demoted endpoint. -/
theorem c7_health_demotion_and_recovery_witness :
    (recordCallFailure (recordCallFailure (recordCallFailure
      (recordCallFailure primaryEndpoint)))).healthy = false ∧
    (1 : Nat) ∉ (executeWithFailover (fun _ => some "x") (fun _ => 0) 0
      c6Pool).attempts ∧
    healthyAt c6Pool.endpoints 0 = true ∧
    (healthCheckEndpoint true 42 7
      { url := "primary", connected := true, healthy := false, lastCheck := 0,
        responseTime := 9000, failures := 4 }).healthy = true := by
  refine ⟨?_, ?_, ?_, ?_⟩
  · exact ((c7_health_demotion_and_recovery.1 primaryEndpoint) (by decide)).1
  · exact ((c7_health_demotion_and_recovery.2.2.1 (fun _ => some "x")
      (fun _ => 0) 0 c6Pool 1 deadSecondaryEndpoint (by decide) (by decide))).1
  · exact c7_health_demotion_and_recovery.2.2.2.1 c6Pool.endpoints 1 0
      (by decide)
  · exact (c7_health_demotion_and_recovery.2.2.2.2.2.1 42 7
      { url := "primary", connected := true, healthy := false, lastCheck := 0,
        responseTime := 9000, failures := 4 } (by decide) (by decide)
      (by decide)).1

/-- Throughout the attempt loop no endpoint's failure counter ever
decreases: a success leaves it unchanged and a failure increments it. -/
theorem execGo_failures_monotone (op : Nat → Option String)
    (elapsed : Nat → Int) (now : Nat) :
    ∀ (fuel : Nat) (st : PoolState) (lastErr : Option String) (tr : List Nat)
      (i : Nat) (e : Endpoint), st.endpoints.get? i = some e →
      ∃ e2, (execGo op elapsed now fuel st lastErr tr).final.endpoints.get? i
          = some e2 ∧ e.failures ≤ e2.failures := by
  intro fuel
  induction fuel with
  | zero =>
    intro st lastErr tr i e hg
    exact ⟨e, hg, le_refl _⟩
  | succ n ih =>
    intro st lastErr tr i e hg
    simp only [execGo]
    cases hcur : st.endpoints.get? st.current with
    | none => exact ⟨e, hg, le_refl _⟩
    | some pd =>
      by_cases hh : pd.healthy = true
      · simp only [hh, if_true]
        cases hop : op st.current with
        | none =>
          by_cases hie : i = st.current
          · have hpe : pd = e := by
              rw [hie, hcur] at hg
              exact Option.some.inj hg
            refine ⟨recordCallSuccess (elapsed st.current) now pd, ?_, ?_⟩
            · simp only
              rw [hie, modifyAt_get?_eq, hcur]
              rfl
            · rw [← hpe]
              simp [recordCallSuccess]
          · refine ⟨e, ?_, le_refl _⟩
            simp only
            rw [modifyAt_get?_ne _ _ _ _ hie]
            exact hg
        | some msg =>
          have hmid : ∃ em,
              (modifyAt recordCallFailure st.current st.endpoints).get? i
                = some em ∧ e.failures ≤ em.failures := by
            by_cases hie : i = st.current
            · have hpe : pd = e := by
                rw [hie, hcur] at hg
                exact Option.some.inj hg
              refine ⟨recordCallFailure pd, ?_, ?_⟩
              · rw [hie, modifyAt_get?_eq, hcur]
                rfl
              · rw [← hpe]
                simp [recordCallFailure]
            · refine ⟨e, ?_, le_refl _⟩
              rw [modifyAt_get?_ne _ _ _ _ hie]
              exact hg
          obtain ⟨em, hem, hle⟩ := hmid
          have hst2 : (if n > 0
              then failover { st with
                endpoints := modifyAt recordCallFailure st.current st.endpoints,
                failuresTotal := st.failuresTotal + 1 }
              else { st with
                endpoints := modifyAt recordCallFailure st.current st.endpoints,
                failuresTotal := st.failuresTotal + 1 }).endpoints.get? i
              = some em := by
            split
            · rw [failover_endpoints]
              exact hem
            · exact hem
          obtain ⟨e2, he2, hle2⟩ := ih _ (some msg) (st.current :: tr) i em hst2
          exact ⟨e2, he2, le_trans hle hle2⟩
      · have hh2 : pd.healthy = false := by simpa using hh
        simp only [hh2, Bool.false_eq_true, if_false]
        refine ih _ _ _ _ _ ?_
        rw [failover_endpoints]
        exact hg

/-- When the call returns via endpoint `i` (an endpoint whose operation
succeeds), the final record of `i` is its original record with only
`responseTime` and `lastCheck` updated — in particular the failure counter is
not reset. -/
theorem execGo_success_update (op : Nat → Option String)
    (elapsed : Nat → Int) (now : Nat) :
    ∀ (fuel : Nat) (st : PoolState) (lastErr : Option String) (tr : List Nat)
      (i : Nat) (e : Endpoint), st.endpoints.get? i = some e → op i = none →
      (execGo op elapsed now fuel st lastErr tr).success = true →
      (execGo op elapsed now fuel st lastErr tr).attempts.getLast? = some i →
      (execGo op elapsed now fuel st lastErr tr).final.endpoints.get? i =
        some (recordCallSuccess (elapsed i) now e) := by
  intro fuel
  induction fuel with
  | zero =>
    intro st lastErr tr i e hg hop hs _
    simp [execGo] at hs
  | succ n ih =>
    intro st lastErr tr i e hg hop hs hlast
    simp only [execGo] at hs hlast ⊢
    cases hcur : st.endpoints.get? st.current with
    | none =>
      simp only [hcur] at hs
      simp at hs
    | some pd =>
      simp only [hcur] at hs hlast ⊢
      by_cases hh : pd.healthy = true
      · simp only [hh, if_true] at hs hlast ⊢
        cases hopc : op st.current with
        | none =>
          simp only [hopc] at hlast ⊢
          rw [List.getLast?_reverse] at hlast
          simp only [List.head?_cons] at hlast
          injection hlast with hci
          subst hci
          rw [hcur] at hg
          injection hg with hpe
          subst hpe
          rw [modifyAt_get?_eq, hcur]
          rfl
        | some msg =>
          simp only [hopc] at hs hlast ⊢
          have hie : i ≠ st.current := by
            intro hie
            rw [hie, hopc] at hop
            cases hop
          have hmid : (modifyAt recordCallFailure st.current st.endpoints).get? i
              = some e := by
            rw [modifyAt_get?_ne _ _ _ _ hie]
            exact hg
          refine ih _ _ _ _ _ ?_ hop hs hlast
          show (if n > 0 then failover _ else _).endpoints.get? i = some e
          split
          · rw [failover_endpoints]
            exact hmid
          · exact hmid
      · have hh2 : pd.healthy = false := by simpa using hh
        simp only [hh2, Bool.false_eq_true, if_false] at hs hlast ⊢
        refine ih _ _ _ _ _ ?_ hop hs hlast
        rw [failover_endpoints]
        exact hg

/-- A sequence of `executeWithFailover` calls, each with its own operation
outcome, threaded through the pool state. -/
def runCalls (elapsed : Nat → Int) (now : Nat) :
    List (Option String) → PoolState → PoolState
  | [], st => st
  | o :: rest, st =>
    runCalls elapsed now rest
      ((executeWithFailover (fun _ => o) elapsed now st).final)

/-- Number of failing calls in a call sequence. -/
def countFailingCalls (ops : List (Option String)) : Nat :=
  (ops.filter Option.isSome).length

/-- One `executeWithFailover` call on a single-endpoint pool: a healthy
endpoint is updated by the success or failure record, an unhealthy one is
untouched, and the cursor stays at 0. -/
theorem executeWithFailover_single_step (o : Option String)
    (elapsed : Nat → Int) (now : Nat) (st : PoolState) (ep : Endpoint)
    (he : st.endpoints = [ep]) (hc : st.current = 0) :
    (executeWithFailover (fun _ => o) elapsed now st).final.endpoints =
      (if ep.healthy then
        match o with
        | none => [recordCallSuccess (elapsed 0) now ep]
        | some _ => [recordCallFailure ep]
       else [ep]) ∧
    (executeWithFailover (fun _ => o) elapsed now st).final.current = 0 := by
  obtain ⟨eps, cur, rq, ftl, fo⟩ := st
  simp only at he hc
  subst he
  subst hc
  by_cases hh : ep.healthy = true
  · cases o with
    | none =>
      simp [executeWithFailover, execGo, modifyAt, hh]
    | some msg =>
      simp [executeWithFailover, execGo, modifyAt, failover, findNextHealthy,
        healthyAt, hh]
  · have hh2 : ep.healthy = false := by simpa using hh
    simp [executeWithFailover, execGo, modifyAt, failover, findNextHealthy,
      healthyAt, hh2, List.range_succ, List.findSome?_cons, List.findSome?_nil]

/-- Failure accumulation on a single-endpoint pool: across any sequence of
calls, the endpoint's failure counter equals the number of failing calls
(capped at 4, after which the endpoint is unhealthy and no longer executed
against) and its health flag reflects whether fewer than 4 failures have
accumulated — successes in between never reset the counter. -/
theorem runCalls_single_endpoint (elapsed : Nat → Int) (now : Nat) :
    ∀ (ops : List (Option String)) (st : PoolState) (ep : Endpoint),
      st.endpoints = [ep] → st.current = 0 →
      ep.healthy = decide (ep.failures < 4) → ep.failures ≤ 4 →
      ∃ ep2, (runCalls elapsed now ops st).endpoints = [ep2] ∧
        ep2.failures = min (ep.failures + countFailingCalls ops) 4 ∧
        ep2.healthy = decide (ep2.failures < 4) := by
  intro ops
  induction ops with
  | nil =>
    intro st ep he hc hinv hle
    refine ⟨ep, he, ?_, hinv⟩
    simp only [countFailingCalls, List.filter_nil, List.length_nil]
    omega
  | cons o rest ih =>
    intro st ep he hc hinv hle
    obtain ⟨hstep1, hstep2⟩ :=
      executeWithFailover_single_step o elapsed now st ep he hc
    simp only [runCalls]
    by_cases hh : ep.healthy = true
    · have hf4 : ep.failures < 4 := by
        rw [hh] at hinv
        exact of_decide_eq_true hinv.symm
      cases o with
      | none =>
        simp only [hh, if_true] at hstep1
        obtain ⟨ep2, h1, h2, h3⟩ := ih _ (recordCallSuccess (elapsed 0) now ep)
          hstep1 hstep2 (by simpa [recordCallSuccess] using hinv)
          (by simpa [recordCallSuccess] using hle)
        refine ⟨ep2, h1, ?_, h3⟩
        simpa [recordCallSuccess, countFailingCalls] using h2
      | some msg =>
        simp only [hh, if_true] at hstep1
        have hinv2 : (recordCallFailure ep).healthy =
            decide ((recordCallFailure ep).failures < 4) := by
          simp only [recordCallFailure]
          by_cases h4 : ep.failures + 1 > 3
          · simp [h4]
            omega
          · simp [h4, hh]
            omega
        obtain ⟨ep2, h1, h2, h3⟩ := ih _ (recordCallFailure ep)
          hstep1 hstep2 hinv2 (by simp only [recordCallFailure]; omega)
        refine ⟨ep2, h1, ?_, h3⟩
        rw [h2]
        simp only [recordCallFailure, countFailingCalls, List.filter_cons]
        simp
        omega
    · have hh2 : ep.healthy = false := by simpa using hh
      have hf4 : ep.failures = 4 := by
        rw [hh2] at hinv
        have := of_decide_eq_false hinv.symm
        omega
      simp only [hh2, Bool.false_eq_true, if_false] at hstep1
      obtain ⟨ep2, h1, h2, h3⟩ := ih _ ep hstep1 hstep2 hinv hle
      refine ⟨ep2, h1, ?_, h3⟩
      rw [h2, hf4]
      simp only [countFailingCalls, List.filter_cons]
      cases o <;> simp <;> omega

/-- Single-endpoint pool with the healthy primary. -/
def singleEndpointPool : PoolState :=
  { endpoints := [primaryEndpoint], current := 0, requests := 0,
    failuresTotal := 0, failovers := 0 }

/-- C10: a call through `executeWithFailover` never decreases any endpoint's
failure counter; the call that succeeds via endpoint `i` leaves that
endpoint's record unchanged except for `responseTime` and `lastCheck` (in
particular the counter is not reset); consequently, on a single-endpoint
pool, any call sequence containing 4 failures — with arbitrarily many
successful calls in between — leaves the endpoint unhealthy with its counter
at 4. -/
theorem c10_failure_counter_persistence :
    (∀ (op : Nat → Option String) (elapsed : Nat → Int) (now : Nat)
        (st : PoolState) (i : Nat) (e : Endpoint),
      st.endpoints.get? i = some e →
      ∃ e2, (executeWithFailover op elapsed now st).final.endpoints.get? i
          = some e2 ∧ e.failures ≤ e2.failures) ∧
    (∀ (op : Nat → Option String) (elapsed : Nat → Int) (now : Nat)
        (st : PoolState) (i : Nat) (e : Endpoint),
      st.endpoints.get? i = some e → op i = none →
      (executeWithFailover op elapsed now st).success = true →
      (executeWithFailover op elapsed now st).attempts.getLast? = some i →
      (executeWithFailover op elapsed now st).final.endpoints.get? i =
        some (recordCallSuccess (elapsed i) now e)) ∧
    (∀ (elapsed : Nat → Int) (now : Nat) (ops : List (Option String))
        (st : PoolState) (ep : Endpoint),
      st.endpoints = [ep] → st.current = 0 → ep.healthy = true →
      ep.failures = 0 → 4 ≤ countFailingCalls ops →
      ∃ ep2, (runCalls elapsed now ops st).endpoints = [ep2] ∧
        ep2.healthy = false ∧ ep2.failures = 4) := by
  refine ⟨?_, ?_, ?_⟩
  · intro op elapsed now st i e hg
    exact execGo_failures_monotone op elapsed now st.endpoints.length
      { st with requests := st.requests + 1 } none [] i e hg
  · intro op elapsed now st i e hg hop hs hlast
    exact execGo_success_update op elapsed now st.endpoints.length
      { st with requests := st.requests + 1 } none [] i e hg hop hs hlast
  · intro elapsed now ops st ep he hc hh hf hcount
    obtain ⟨ep2, h1, h2, h3⟩ := runCalls_single_endpoint elapsed now ops st ep
      he hc (by rw [hh, hf]; rfl) (by omega)
    rw [hf] at h2
    have hf2 : ep2.failures = 4 := by
      rw [h2]
      omega
    refine ⟨ep2, h1, ?_, hf2⟩
    rw [h3, hf2]
    rfl

/-- Witness for `c10_failure_counter_persistence`: four failing calls spread
among successes on the single-endpoint pool leave the endpoint unhealthy, and
a plain successful call on the two-endpoint pool rewrites only response time
and last-check of the primary. -/
theorem c10_failure_counter_persistence_witness :
    ((runCalls (fun _ => 0) 0
        [some "a", none, some "b", none, some "c", none, some "d"]
        singleEndpointPool).endpoints.map Endpoint.healthy) = [false] ∧
    (executeWithFailover (fun _ => none) (fun _ => 5) 9 c6Pool
      ).final.endpoints.get? 0 = some (recordCallSuccess 5 9 primaryEndpoint)
    := by
  constructor
  · obtain ⟨ep2, h1, h2, h3⟩ := c10_failure_counter_persistence.2.2
      (fun _ => 0) 0 [some "a", none, some "b", none, some "c", none, some "d"]
      singleEndpointPool primaryEndpoint (by decide) (by decide) (by decide)
      (by decide) (by decide)
    rw [h1]
    simp [h2]
  · exact c10_failure_counter_persistence.2.1 (fun _ => none) (fun _ => 5) 9
      c6Pool 0 primaryEndpoint (by decide) rfl (by decide) (by decide)
